import Mathlib

/-!
Shallow embedding of the SMC futures-bot decision pipeline
(`smc/liquidity.py`, `smc/displacement.py`, `smc/fvg_zones.py`,
`smc/rr_leverage.py`, `smc/tiers.py`, `smc/sweep_fvg_analyzer.py`).

Conventions of the embedding:
* Python floats are modelled as exact rationals (`ℚ`); decimal literals of the
  source such as `0.35` are read as the rational `35/100`.  Float rounding,
  `inf` and `NaN` are outside the model; `math.isfinite` checks of the source
  are therefore identically true and noted where dropped.
* Candles are the well-typed records produced by `binance/ohlc_buffer.py`
  (every numeric field a float).  The `try: float(...) except` guards of the
  source always succeed on such candles, so they disappear in the embedding.
* Python dicts returned by the detectors become structures with the same
  field names.  `None` becomes `Option.none`.
* The explicit `raise` statements of `build_levels_and_leverage` are modelled
  with `Except String`; the orchestrator `analyze_symbol_smc` propagates them
  by matching, exactly as the Python code (which has no try/except) does.
* The process-global configuration read by the pipeline (`state.min_tier`,
  `smc_settings.max_entry_age_candles`) and the HTF snapshot fetched by
  `get_htf_context` are passed as explicit parameters.
* `sorted(..., key=price)` (Timsort, stable) is modelled by a stable
  insertion sort; Python `max(..., key=tuple)` (first maximal element wins)
  is modelled by a left fold that replaces only on a strictly larger key.
-/

set_option maxRecDepth 16000
set_option maxHeartbeats 1600000

namespace SmcBot

/-- A closed 5m candle as stored by `OHLCBufferManager` (`binance/ohlc_buffer.py`):
a `TypedDict` with numeric OHLCV fields.  The field `open` of the source is
spelled `«open»` because `open` is a Lean keyword. -/
structure Candle where
  open_time : Int
  close_time : Int
  «open» : ℚ
  high : ℚ
  low : ℚ
  close : ℚ
  volume : ℚ
  closed : Bool
deriving DecidableEq, Inhabited

/-- Total list access; the source only indexes inside bounds it has checked. -/
def nth (cs : List Candle) (i : Nat) : Candle := cs.getD i default

/-- Result dict of `detect_liquidity_zones`. -/
structure LiquidityZones where
  upper_liquidity : Option ℚ
  lower_liquidity : Option ℚ
deriving DecidableEq, Inhabited

/-- `_pivot_high(candles, i, left, right)` (`liquidity.py`): `high[i]` strictly
above every other high in the window `[i-left, i+right]`.  The `n == 0` and
negative-margin guards of the source are subsumed by the bound checks for
`Nat` arguments. -/
def pivot_high (candles : List Candle) (i left right : Nat) : Bool :=
  let n := candles.length
  if i < left ∨ i + right ≥ n then false
  else
    let h := (nth candles i).high
    ((List.range (left + right + 1)).map (fun k => i - left + k)).all
      (fun j => j = i ∨ (nth candles j).high < h)

/-- `_pivot_low(candles, i, left, right)` (`liquidity.py`). -/
def pivot_low (candles : List Candle) (i left right : Nat) : Bool :=
  let n := candles.length
  if i < left ∨ i + right ≥ n then false
  else
    let l := (nth candles i).low
    ((List.range (left + right + 1)).map (fun k => i - left + k)).all
      (fun j => j = i ∨ l < (nth candles j).low)

/-- `find_swings(candles, left, right)` (`liquidity.py`): indices of pivot
highs and pivot lows, with `left`/`right` clamped to `n // 2`. -/
def find_swings (candles : List Candle) (left right : Nat) : List Nat × List Nat :=
  let n := candles.length
  let l := min left (n / 2)
  let r := min right (n / 2)
  ((List.range n).filter (fun i => pivot_high candles i l r),
   (List.range n).filter (fun i => pivot_low candles i l r))

/-- Mean price of a cluster of `(index, price)` pairs. -/
def clusterMean (cl : List (Nat × ℚ)) : ℚ :=
  (cl.map (fun p => p.2)).sum / (cl.length : ℚ)

/-- One step of the left-to-right single-pass clustering of
`_cluster_levels` (`liquidity.py`): join the current cluster when the
relative deviation from its running mean is at most `tolerance_pct`. -/
def clusterStep (tol : ℚ) (acc : List (List (Nat × ℚ)) × List (Nat × ℚ))
    (ip : Nat × ℚ) : List (List (Nat × ℚ)) × List (Nat × ℚ) :=
  let avg := clusterMean acc.2
  let relDiff := if avg ≠ 0 then |ip.2 - avg| / avg else 0
  if relDiff ≤ tol then (acc.1, acc.2 ++ [ip])
  else (acc.1 ++ [acc.2], [ip])

/-- `_cluster_levels(values, tolerance_pct)` (`liquidity.py`). -/
def cluster_levels (values : List (Nat × ℚ)) (tolerance_pct : ℚ) :
    List (List (Nat × ℚ)) :=
  match values with
  | [] => []
  | v :: vs =>
    let fin := vs.foldl (clusterStep tolerance_pct) ([], [v])
    fin.1 ++ [fin.2]

/-- Stable insertion into a price-sorted list (models the stability of
Python `sorted` with `key=lambda x: x[1]`). -/
def insertByPrice (x : Nat × ℚ) : List (Nat × ℚ) → List (Nat × ℚ)
  | [] => [x]
  | y :: ys => if x.2 ≤ y.2 then x :: y :: ys else y :: insertByPrice x ys

/-- Stable sort by price, ascending. -/
def sortByPrice : List (Nat × ℚ) → List (Nat × ℚ)
  | [] => []
  | x :: xs => insertByPrice x (sortByPrice xs)

/-- Python `max(clusters, key=lambda cl: (len(cl), -abs(mean - last)))`:
first maximal element under the lexicographic tuple order. -/
def pickBestCluster (lastPrice : ℚ) : List (List (Nat × ℚ)) → Option (List (Nat × ℚ))
  | [] => none
  | c :: cs => some (cs.foldl (fun best cand =>
      if cand.length > best.length ∨
         (cand.length = best.length ∧
          -|clusterMean cand - lastPrice| > -|clusterMean best - lastPrice|)
      then cand else best) c)

/-- `detect_liquidity_zones(candles, lookback, tolerance_pct)` (`liquidity.py`).
The final `math.isfinite` re-checks of the source hold identically over `ℚ`. -/
def detect_liquidity_zones (candles : List Candle) (lookback : Nat)
    (tolerance_pct : ℚ) : LiquidityZones :=
  let n := candles.length
  if n < 8 then ⟨none, none⟩
  else
    let start := n - lookback
    let segment := candles.drop start
    let swings := find_swings segment 2 2
    let highs := swings.1.map (fun i => (start + i, (nth segment i).high))
    let lows := swings.2.map (fun i => (start + i, (nth segment i).low))
    let lastPrice := (nth candles (n - 1)).close
    let upper :=
      if highs.length ≥ 2 then
        match pickBestCluster lastPrice (cluster_levels (sortByPrice highs) tolerance_pct) with
        | some best => if best.isEmpty then none else some (clusterMean best)
        | none => none
      else none
    let lower :=
      if lows.length ≥ 2 then
        match pickBestCluster lastPrice (cluster_levels (sortByPrice lows) tolerance_pct) with
        | some best => if best.isEmpty then none else some (clusterMean best)
        | none => none
      else none
    ⟨upper, lower⟩

/-- The side of a setup; `detect_sweep` returns the strings `"long"`/`"short"`. -/
inductive Side where
  | long
  | short
deriving DecidableEq, Inhabited

/-- Result dict of `detect_sweep`. -/
structure SweepResult where
  side : Option Side
  index : Option Nat
  liquidity_level : Option ℚ
  quality : Bool
deriving DecidableEq, Inhabited

/-- `avg_stats(before_index)` (closure inside `detect_sweep`, `liquidity.py`):
averages of range, upper wick and lower wick over up to 5 candles strictly
before `before_index`; zeros when no such candles exist. -/
def avg_stats (candles : List Candle) (beforeIndex : Nat) : ℚ × ℚ × ℚ :=
  let prev := (candles.take beforeIndex).drop (beforeIndex - 5)
  if prev.isEmpty then (0, 0, 0)
  else
    let ranges := prev.map (fun c => c.high - c.low)
    let ups := prev.map (fun c => c.high - max c.«open» c.close)
    let los := prev.map (fun c => min c.«open» c.close - c.low)
    (ranges.sum / (ranges.length : ℚ),
     ups.sum / (ups.length : ℚ),
     los.sum / (los.length : ℚ))

/-- The long-sweep scan loop of `detect_sweep` over a list of candidate
indices (newest first): first candle with `low < lower_liquidity < close`
and positive range. -/
def sweepScanLong (candles : List Candle) (lowerLiq : ℚ) :
    List Nat → Option SweepResult
  | [] => none
  | i :: rest =>
    let c := nth candles i
    if ¬ (c.low < lowerLiq ∧ lowerLiq < c.close) then
      sweepScanLong candles lowerLiq rest
    else
      let totalRange := c.high - c.low
      if totalRange ≤ 0 then sweepScanLong candles lowerLiq rest
      else
        let body := |c.close - c.«open»|
        let lowerWick := min c.«open» c.close - c.low
        let stats := avg_stats candles i
        let avgRange := stats.1
        let avgLoWick := stats.2.2
        if avgRange ≤ 0 then
          some ⟨some Side.long, some i, some lowerLiq, false⟩
        else
          let rangeOk := totalRange > 3/2 * avgRange
          let wickFrac := if totalRange > 0 then lowerWick / totalRange else 0
          let wickVsAvg := if avgLoWick > 0 then lowerWick > 3/2 * avgLoWick else True
          let bodyNotTooBig := body ≤ 7/10 * totalRange
          some ⟨some Side.long, some i, some lowerLiq,
                decide (rangeOk ∧ wickFrac ≥ 45/100 ∧ wickVsAvg ∧ bodyNotTooBig)⟩

/-- The short-sweep scan loop of `detect_sweep`: first candle with
`high > upper_liquidity > close` and positive range. -/
def sweepScanShort (candles : List Candle) (upperLiq : ℚ) :
    List Nat → Option SweepResult
  | [] => none
  | i :: rest =>
    let c := nth candles i
    if ¬ (c.high > upperLiq ∧ upperLiq > c.close) then
      sweepScanShort candles upperLiq rest
    else
      let totalRange := c.high - c.low
      if totalRange ≤ 0 then sweepScanShort candles upperLiq rest
      else
        let body := |c.close - c.«open»|
        let upperWick := c.high - max c.«open» c.close
        let stats := avg_stats candles i
        let avgRange := stats.1
        let avgUpWick := stats.2.1
        if avgRange ≤ 0 then
          some ⟨some Side.short, some i, some upperLiq, false⟩
        else
          let rangeOk := totalRange > 3/2 * avgRange
          let wickFrac := if totalRange > 0 then upperWick / totalRange else 0
          let wickVsAvg := if avgUpWick > 0 then upperWick > 3/2 * avgUpWick else True
          let bodyNotTooBig := body ≤ 7/10 * totalRange
          some ⟨some Side.short, some i, some upperLiq,
                decide (rangeOk ∧ wickFrac ≥ 45/100 ∧ wickVsAvg ∧ bodyNotTooBig)⟩

/-- The indices `range(n-1, start-1, -1)` scanned by `detect_sweep`. -/
def scanIndices (n start : Nat) : List Nat := ((List.range n).drop start).reverse

/-- `detect_sweep(candles, upper_liquidity, lower_liquidity, check_last_n)`
(`liquidity.py`): the long side is scanned first over the most recent
`check_last_n` candles; only if it produces no event is the short side
scanned. -/
def detect_sweep (candles : List Candle) (upper_liquidity lower_liquidity : Option ℚ)
    (check_last_n : Nat) : SweepResult :=
  let n := candles.length
  if n < 6 then ⟨none, none, none, false⟩
  else
    let start := n - check_last_n
    let longRes :=
      match lower_liquidity with
      | some ll => sweepScanLong candles ll (scanIndices n start)
      | none => none
    match longRes with
    | some r => r
    | none =>
      match upper_liquidity with
      | some ul =>
        match sweepScanShort candles ul (scanIndices n start) with
        | some r => r
        | none => ⟨none, none, none, false⟩
      | none => ⟨none, none, none, false⟩

/-- Result dict of `detect_displacement`. -/
structure DisplacementResult where
  index : Option Nat
  bos_ok : Bool
deriving DecidableEq, Inhabited

/-- One step of the candidate loop of `detect_displacement`
(`displacement.py`): the accumulator is `(best_idx, best_body, bos_ok)`. -/
def displacementStep (candles : List Candle) (side : Side) (bodyFactor avgBody preHigh preLow : ℚ)
    (acc : Option Nat × ℚ × Bool) (i : Nat) : Option Nat × ℚ × Bool :=
  let c := nth candles i
  let body := |c.close - c.«open»|
  let totalRange := c.high - c.low
  if totalRange ≤ 0 then acc
  else if side = Side.long ∧ ¬ c.close > c.«open» then acc
  else if side = Side.short ∧ ¬ c.close < c.«open» then acc
  else
    let bodyFrac := body / totalRange
    if body < bodyFactor * avgBody ∨ bodyFrac < 60/100 then acc
    else
      let bosCond := if side = Side.long then c.close > preHigh else c.close < preLow
      if body > acc.2.1 then (some i, body, decide bosCond) else acc

/-- `detect_displacement(candles, sweep_index, side, look_ahead, body_factor)`
(`displacement.py`). -/
def detect_displacement (candles : List Candle) (sweep_index : Nat) (side : Side)
    (look_ahead : Nat) (body_factor : ℚ) : DisplacementResult :=
  let n := candles.length
  if n < 10 then ⟨none, false⟩
  else if sweep_index < 2 ∨ sweep_index ≥ n - 1 then ⟨none, false⟩
  else
    let prevSegment := (candles.take sweep_index).drop (sweep_index - 5)
    let prevBodies := prevSegment.map (fun c => |c.close - c.«open»|)
    if prevBodies.isEmpty then ⟨none, false⟩
    else
      let avgBody := prevBodies.sum / (prevBodies.length : ℚ)
      if avgBody ≤ 0 then ⟨none, false⟩
      else
        let structSegment := (candles.take (sweep_index + 1)).drop (sweep_index - 6)
        if structSegment.isEmpty then ⟨none, false⟩
        else
          let preHigh := (structSegment.map (fun c => c.high)).max?.getD 0
          let preLow := (structSegment.map (fun c => c.low)).min?.getD 0
          let stop := min n (sweep_index + 1 + max 1 look_ahead)
          let idxs := List.range' (sweep_index + 1) (stop - (sweep_index + 1))
          let fin := idxs.foldl
            (displacementStep candles side body_factor avgBody preHigh preLow)
            (none, 0, false)
          ⟨fin.1, fin.2.2⟩

/-- The FVG direction strings `"bullish"` / `"bearish"`. -/
inductive Direction where
  | bullish
  | bearish
deriving DecidableEq, Inhabited

/-- Result dict of `detect_fvg_around`. -/
structure FvgResult where
  has_fvg : Bool
  low : Option ℚ
  high : Option ℚ
  direction : Option Direction
  quality_ok : Bool
deriving DecidableEq, Inhabited

/-- The empty result `{has_fvg: False, ...}` of `detect_fvg_around`. -/
def noFvg : FvgResult := ⟨false, none, none, none, false⟩

/-- One step of the triplet loop of `detect_fvg_around` (`fvg_zones.py`): the
accumulator holds the best bullish and bearish candidates as
`(mid_distance, fvg_low, fvg_high)`, each replaced only on a strictly
smaller mid distance. -/
def fvgStep (candles : List Candle) (lastClose : ℚ)
    (acc : Option (ℚ × ℚ × ℚ) × Option (ℚ × ℚ × ℚ)) (i : Nat) :
    Option (ℚ × ℚ × ℚ) × Option (ℚ × ℚ × ℚ) :=
  let c0 := nth candles i
  let c2 := nth candles (i + 2)
  let bull :=
    if c2.low > c0.high then
      let fvgLow := c0.high
      let fvgHigh := c2.low
      let mid := (fvgLow + fvgHigh) / 2
      if mid > 0 then
        let dist := |lastClose - mid|
        match acc.1 with
        | none => some (dist, fvgLow, fvgHigh)
        | some best => if dist < best.1 then some (dist, fvgLow, fvgHigh) else acc.1
      else acc.1
    else acc.1
  let bear :=
    if c2.high < c0.low then
      let fvgHigh := c0.low
      let fvgLow := c2.high
      let mid := (fvgLow + fvgHigh) / 2
      if mid > 0 then
        let dist := |lastClose - mid|
        match acc.2 with
        | none => some (dist, fvgLow, fvgHigh)
        | some best => if dist < best.1 then some (dist, fvgLow, fvgHigh) else acc.2
      else acc.2
    else acc.2
  (bull, bear)

/-- `detect_fvg_around(candles, center_index, window, max_width_pct,
max_dist_pct, min_width_pct)` (`fvg_zones.py`).  The `center_index is None`
guard of the source is handled by the caller, which only passes a present
displacement index. -/
def detect_fvg_around (candles : List Candle) (center_index : Nat) (window : Nat)
    (max_width_pct max_dist_pct min_width_pct : ℚ) : FvgResult :=
  let n := candles.length
  if n < 3 then noFvg
  else if ¬ center_index < n then noFvg
  else
    let start := center_index - window
    let lastStart := min (n - 3) (center_index + window)
    if start > lastStart then noFvg
    else
      let lastClose := (nth candles (n - 1)).close
      let idxs := List.range' start (lastStart + 1 - start)
      let best := idxs.foldl (fvgStep candles lastClose) (none, none)
      let chosen : Option (Direction × ℚ × ℚ) :=
        match best.1, best.2 with
        | none, none => none
        | some b, none => some (Direction.bullish, b.2)
        | none, some s => some (Direction.bearish, s.2)
        | some b, some s =>
          if b.1 ≤ s.1 then some (Direction.bullish, b.2)
          else some (Direction.bearish, s.2)
      match chosen with
      | none => noFvg
      | some dlh =>
        let fvgLow := dlh.2.1
        let fvgHigh := dlh.2.2
        if fvgHigh ≤ fvgLow then noFvg
        else
          let width := fvgHigh - fvgLow
          let midVal := (fvgLow + fvgHigh) / 2
          let widthPct := if midVal ≤ 0 then 0 else width / midVal
          let distPct := if midVal ≤ 0 then 0 else |lastClose - midVal| / midVal
          let qualityOk := ¬ widthPct > max_width_pct ∧ ¬ widthPct < min_width_pct ∧
            ¬ distPct > max_dist_pct
          ⟨true, some fvgLow, some fvgHigh, some dlh.1, decide qualityOk⟩

/-- `_calc_atr(candles, period)` (`rr_leverage.py`): mean of the last
`period` true ranges; `0` when fewer than `period + 2` candles. -/
def calc_atr (candles : List Candle) (period : Nat) : ℚ :=
  let n := candles.length
  if n ≤ period + 1 then 0
  else
    let trs := (List.range (n - 1)).map (fun k =>
      let c := nth candles (k + 1)
      let p := nth candles k
      max (c.high - c.low) (max |c.high - p.close| |c.low - p.close|))
    if trs.isEmpty then 0
    else
      let per := min period trs.length
      let recent := trs.drop (trs.length - per)
      recent.sum / (recent.length : ℚ)

/-- The level/leverage dict returned by `build_levels_and_leverage`. -/
structure Levels where
  entry : ℚ
  sl : ℚ
  tp1 : ℚ
  tp2 : ℚ
  tp3 : ℚ
  sl_pct : ℚ
  lev_min : ℚ
  lev_max : ℚ
deriving DecidableEq, Inhabited

/-- Entry selection of `build_levels_and_leverage` (lines 82-95): a retest
30 percent inside the FVG, clamped by the current price, with the
zero-entry guard. -/
def computeEntry (side : Side) (lastClose fLow fHigh fRange : ℚ) : ℚ :=
  let entry :=
    if side = Side.long then min (fHigh - 3/10 * fRange) lastClose
    else max (fLow + 3/10 * fRange) lastClose
  if entry = 0 then (if lastClose ≠ 0 then lastClose else 1/1000000000) else entry

/-- Stop-buffer of `build_levels_and_leverage` (lines 100-108): FVG-based
base buffer against a price-percent / ATR floor. -/
def computeBuffer (entry atr fRange : ℚ) : ℚ :=
  let baseBuffer := 3/10 * fRange
  let minPriceBuffer := |entry| * (35/10000)
  let minPriceBuffer := if atr > 0 then max minPriceBuffer (1/2 * atr) else minPriceBuffer
  max baseBuffer minPriceBuffer

/-- Initial stop and risk (lines 110-117): stop behind the sweep extreme. -/
def initialSlRisk (side : Side) (candles : List Candle) (sweepIndex : Nat)
    (entry buffer : ℚ) : ℚ × ℚ :=
  if side = Side.long then
    let sweepLow := (nth candles sweepIndex).low
    (sweepLow - buffer, entry - (sweepLow - buffer))
  else
    let sweepHigh := (nth candles sweepIndex).high
    (sweepHigh + buffer, (sweepHigh + buffer) - entry)

/-- Degenerate-risk fallback (lines 119-127): re-derive the stop from a
0.35 percent risk.  Over `ℚ` the source condition
`not (risk > 0 and isfinite(risk))` is `¬ risk > 0`. -/
def fallbackSlRisk (side : Side) (entry : ℚ) : ℚ × ℚ :=
  let minR := |entry| * (35/10000)
  if side = Side.long then (entry - minR, entry - (entry - minR))
  else (entry + minR, (entry + minR) - entry)

/-- Re-derive stop and risk from a target risk (the two clamp bodies of
lines 138-160). -/
def applyTargetRisk (side : Side) (entry targetRisk : ℚ) : ℚ × ℚ :=
  if side = Side.long then (entry - targetRisk, entry - (entry - targetRisk))
  else (entry + targetRisk, (entry + targetRisk) - entry)

/-- The healthy-band enforcement of `build_levels_and_leverage`
(lines 134-160): widen the risk when `sl_pct` is below 0.35 percent, cap it
when above 20 percent, recomputing `sl_pct` after each clamp.  Returns
`(sl, risk, sl_pct)`. -/
def enforceSlBand (side : Side) (entry sl risk : ℚ) : ℚ × ℚ × ℚ :=
  let slPct := |risk / entry| * 100
  let step1 :=
    if slPct < 35/100 then
      let t := applyTargetRisk side entry (|entry| * (35/100 / 100))
      (t.1, t.2, |t.2 / entry| * 100)
    else (sl, risk, slPct)
  if step1.2.2 > 20 then
    let t := applyTargetRisk side entry (|entry| * (20 / 100))
    (t.1, t.2, |t.2 / entry| * 100)
  else step1

/-- `recommend_leverage_range(sl_pct)` (`rr_leverage.py`); the
`float` coercion of the source always succeeds here. -/
def recommend_leverage_range (sl_pct : ℚ) : ℚ × ℚ :=
  if sl_pct ≤ 0 then (1, 2)
  else if sl_pct ≤ 1/2 then (4, 7)
  else if sl_pct ≤ 8/10 then (3, 5)
  else if sl_pct ≤ 3/2 then (2, 3)
  else (1, 2)

/-- The stop/risk pair after the degenerate-risk fallback (lines 110-127):
the initial pair is kept when its risk is positive, otherwise the
0.35-percent fallback replaces it. -/
def srFinal (side : Side) (candles : List Candle) (sweepIndex : Nat)
    (entry buffer : ℚ) : ℚ × ℚ :=
  let sr0 := initialSlRisk side candles sweepIndex entry buffer
  if sr0.2 > 0 then sr0 else fallbackSlRisk side entry

/-- The level record assembled from the band-enforced stop/risk (lines
134-193): targets at the RR multiples of the final risk and the leverage
recommendation from the final `sl_pct` (with the `lev_min <= lev_max`
swap). -/
def mkLevels (side : Side) (entry : ℚ) (sr : ℚ × ℚ) (rr_tp1 rr_tp2 rr_tp3 : ℚ) :
    Levels :=
  let esr := enforceSlBand side entry sr.1 sr.2
  let risk := esr.2.1
  let sl_pct := esr.2.2
  let tp1 := if side = Side.long then entry + rr_tp1 * risk else entry - rr_tp1 * risk
  let tp2 := if side = Side.long then entry + rr_tp2 * risk else entry - rr_tp2 * risk
  let tp3 := if side = Side.long then entry + rr_tp3 * risk else entry - rr_tp3 * risk
  let lev := recommend_leverage_range sl_pct
  let lev := if lev.1 > lev.2 then (lev.2, lev.1) else lev
  ⟨entry, esr.1, tp1, tp2, tp3, sl_pct, lev.1, lev.2⟩

/-- The tail of `build_levels_and_leverage` after the entry and buffer are
fixed: the `RuntimeError` guard on a nonpositive final risk, then the level
record. -/
def bodyTail (side : Side) (candles : List Candle) (sweepIndex : Nat)
    (entry buffer rr_tp1 rr_tp2 rr_tp3 : ℚ) : Except String Levels :=
  let sr := srFinal side candles sweepIndex entry buffer
  if sr.2 ≤ 0 then Except.error "Unable to compute positive risk for levels"
  else Except.ok (mkLevels side entry sr rr_tp1 rr_tp2 rr_tp3)

/-- `build_levels_and_leverage(side, candles_5m, sweep_index, fvg_low,
fvg_high, rr_tp1, rr_tp2, rr_tp3)` (`rr_leverage.py`).  The `ValueError`,
`IndexError` and `RuntimeError` raise statements of the source become
`Except.error`; the final `isfinite` guard on the leverage pair holds
identically over `ℚ`. -/
def build_levels_and_leverage (side : Side) (candles_5m : List Candle)
    (sweep_index : Nat) (fvg_low fvg_high rr_tp1 rr_tp2 rr_tp3 : ℚ) :
    Except String Levels :=
  if candles_5m.length = 0 then Except.error "candles_5m kosong"
  else if ¬ sweep_index < candles_5m.length then
    Except.error "sweep_index out of range"
  else
    let lastClose := (nth candles_5m (candles_5m.length - 1)).close
    let fLow := min fvg_low fvg_high
    let fHigh := max fvg_low fvg_high
    let fRange := max (fHigh - fLow) (1/1000000000)
    let entry := computeEntry side lastClose fLow fHigh fRange
    let atr := calc_atr candles_5m 14
    let buffer := computeBuffer entry atr fRange
    bodyTail side candles_5m sweep_index entry buffer rr_tp1 rr_tp2 rr_tp3

/-- The meta dict assembled by the analyzer and consumed by `score_signal`
and `evaluate_signal_quality` (`tiers.py`).  A missing `htf_alignment` key is
`none`; both consumers treat it as neutral (`True`).  The remaining keys are
always present booleans in the analyzer, matching the `bool(meta.get(...))`
coercions of the source. -/
structure Meta where
  has_liquidity : Bool
  has_sweep : Bool
  sweep_quality : Bool
  has_displacement : Bool
  disp_bos : Bool
  has_fvg : Bool
  fvg_quality : Bool
  good_rr : Bool
  sl_pct : ℚ
  htf_alignment : Option Bool
deriving DecidableEq, Inhabited

/-- `MIN_SL_PCT` (`tiers.py`, 0.35 percent). -/
def MIN_SL_PCT : ℚ := 35/100

/-- `MAX_SL_PCT` (`tiers.py`, 1.50 percent). -/
def MAX_SL_PCT : ℚ := 3/2

/-- `score_signal(meta)` (`tiers.py`): sum of the fixed weights of the true
flags, the healthy-`sl_pct` bonus included, capped at 150. -/
def score_signal (meta : Meta) : Nat :=
  let score :=
    (if meta.has_liquidity then 10 else 0) +
    (if meta.has_sweep then 20 else 0) +
    (if meta.sweep_quality then 10 else 0) +
    (if meta.has_displacement then 20 else 0) +
    (if meta.disp_bos then 10 else 0) +
    (if meta.has_fvg then 15 else 0) +
    (if meta.fvg_quality then 10 else 0) +
    (if meta.good_rr then 10 else 0) +
    (if MIN_SL_PCT ≤ meta.sl_pct ∧ meta.sl_pct ≤ MAX_SL_PCT then 10 else 0) +
    (if meta.htf_alignment.getD true then 15 else 0)
  min score 150

/-- `tier_from_score(score)` (`tiers.py`). -/
def tier_from_score (score : Nat) : String :=
  if score ≥ 120 then "A+"
  else if score ≥ 100 then "A"
  else if score ≥ 80 then "B"
  else "NONE"

/-- The tier order dict `{"NONE": 0, "B": 1, "A": 2, "A+": 3}` read with
default 0 (`order.get(tier, 0)`). -/
def tierOrder (t : String) : Nat :=
  if t = "NONE" then 0
  else if t = "B" then 1
  else if t = "A" then 2
  else if t = "A+" then 3
  else 0

/-- The same dict read with default 2 (`order.get(min_tier, 2)`). -/
def minTierOrder (t : String) : Nat :=
  if t = "NONE" then 0
  else if t = "B" then 1
  else if t = "A" then 2
  else if t = "A+" then 3
  else 2

/-- Python truthiness of `state.min_tier or "A"`: `None` and the empty
string fall back to `"A"`. -/
def resolveMinTier (stateMinTier : Option String) : String :=
  match stateMinTier with
  | none => "A"
  | some s => if s = "" then "A" else s

/-- `should_send_tier(tier)` (`tiers.py`), with the global `state.min_tier`
passed explicitly. -/
def should_send_tier (tier : String) (stateMinTier : Option String) : Bool :=
  tierOrder tier ≥ minTierOrder (resolveMinTier stateMinTier)

/-- Result dict of `evaluate_signal_quality`. -/
structure Quality where
  score : Nat
  tier : String
  should_send : Bool
  reasons : List String
deriving DecidableEq, Inhabited

/-- `evaluate_signal_quality(meta)` (`tiers.py`): score and tier, the hard
filter recording one reason tag per failing condition, and the send gate
`should_send_tier(tier) and hard_ok`. -/
def evaluate_signal_quality (meta : Meta) (stateMinTier : Option String) : Quality :=
  let score := score_signal meta
  let tier := tier_from_score score
  let reasons :=
    (if ¬ meta.sweep_quality then ["sweep_quality_false"] else []) ++
    (if ¬ meta.disp_bos then ["disp_bos_false"] else []) ++
    (if ¬ meta.fvg_quality then ["fvg_quality_false"] else []) ++
    (if ¬ meta.good_rr then ["good_rr_false"] else []) ++
    (if ¬ meta.htf_alignment.getD true then ["htf_alignment_false"] else []) ++
    (if ¬ (MIN_SL_PCT ≤ meta.sl_pct ∧ meta.sl_pct ≤ MAX_SL_PCT) then
      ["sl_pct_out_of_range"] else [])
  let hardOk := reasons.isEmpty
  ⟨score, tier, should_send_tier tier stateMinTier && hardOk, reasons⟩

/-- The HTF snapshot returned by `get_htf_context` (`htf_context.py`),
treated as an externally supplied value (the provider is an explicit
out-of-scope collaborator that fails open). -/
structure HTFContext where
  trend_1h : String
  pos_1h : String
  pos_15m : String
  htf_ok_long : Bool
  htf_ok_short : Bool
deriving DecidableEq, Inhabited

/-- The result dict built by `analyze_symbol_smc` on success. -/
structure SignalResult where
  symbol : String
  side : Side
  entry : ℚ
  sl : ℚ
  tp1 : ℚ
  tp2 : ℚ
  tp3 : ℚ
  sl_pct : ℚ
  lev_min : ℚ
  lev_max : ℚ
  tier : String
  score : Nat
  htf_context : HTFContext
  message : String
deriving DecidableEq, Inhabited

/-- Round a nonnegative rational half away from zero to an integer. -/
def roundNonneg (q : ℚ) : Int :=
  let r := q + 1/2
  r.num / (r.den : Int)

/-- Fixed-point decimal rendering of a rational, modelling the `f"{x:.kf}"`
formatting of the source (binary-float round-half-even is modelled as exact
rational rounding half away from zero; the rendering is deterministic
either way). -/
def fmtFixed (q : ℚ) (d : Nat) : String :=
  let p : Int := (10 : Int) ^ d
  let a := roundNonneg (|q| * (p : ℚ))
  let ip := a / p
  let fp := (a % p).toNat
  let fpStr := toString fp
  let pad := String.mk (List.replicate (d - fpStr.length) '0')
  (if q < 0 then "-" else "") ++ toString ip ++
    (if d = 0 then "" else "." ++ pad ++ fpStr)

/-- The Telegram message assembled in step 8 of `analyze_symbol_smc`
(`sweep_fvg_analyzer.py`), including the leverage line, the validity line
derived from `smc_settings.max_entry_age_candles` and the mini risk
calculator (`pos_mult = 100 / sl_pct`). -/
def renderMessage (symbol : String) (side : Side) (levels : Levels)
    (tier : String) (score : Nat) (maxEntryAgeCandles : Nat) : String :=
  let directionLabel := if side = Side.long then "LONG" else "SHORT"
  let emoji := if side = Side.long then "🟢" else "🔴"
  let levText := fmtFixed levels.lev_min 0 ++ "x–" ++ fmtFixed levels.lev_max 0 ++ "x"
  let slPctText := fmtFixed levels.sl_pct 2 ++ "%"
  let approxMinutes := maxEntryAgeCandles * 5
  let validText :=
    if approxMinutes > 0 then "±" ++ toString approxMinutes ++ " menit" else "singkat"
  let riskCalc :=
    if levels.sl_pct > 0 then
      let posMult := 100 / levels.sl_pct
      let examplePos := posMult * 100
      "Risk Calc (contoh risiko 1%):\n" ++
      "• SL : " ++ slPctText ++ " → nilai posisi ≈ (1% / SL%) × balance ≈ " ++
      fmtFixed posMult 1 ++ "× balance\n" ++
      "• Contoh balance 100 USDT → posisi ≈ " ++ fmtFixed examplePos 0 ++ " USDT\n" ++
      "(sesuaikan dengan balance & leverage kamu)"
    else "Risk Calc: SL% tidak valid (0), abaikan kalkulasi ini."
  emoji ++ " SMC SIGNAL — " ++ symbol.toUpper ++ " (" ++ directionLabel ++ ")\n" ++
  "Entry : " ++ fmtFixed levels.entry 4 ++ "\n" ++
  "SL    : " ++ fmtFixed levels.sl 4 ++ "\n" ++
  "TP1   : " ++ fmtFixed levels.tp1 4 ++ "\n" ++
  "TP2   : " ++ fmtFixed levels.tp2 4 ++ "\n" ++
  "TP3   : " ++ fmtFixed levels.tp3 4 ++ "\n" ++
  "Model : Sweep → FVG Retest\n" ++
  "Rekomendasi Leverage : " ++ levText ++ " (SL " ++ slPctText ++ ")\n" ++
  "Validitas Entry : " ++ validText ++ "\n" ++
  "Tier : " ++ tier ++ " (Score " ++ toString score ++ ")\n" ++
  riskCalc

/-- `analyze_symbol_smc(symbol, candles_5m)` (`sweep_fvg_analyzer.py`).
The HTF snapshot, the global `state.min_tier` and
`smc_settings.max_entry_age_candles` are explicit parameters; the
`log_signal` call swallows its own errors and does not influence the
result, so it is not modelled.  An `Except.error` value models an uncaught
Python exception escaping the orchestrator. -/
def analyze_symbol_smc (symbol : String) (candles_5m : List Candle)
    (htfCtx : HTFContext) (stateMinTier : Option String)
    (maxEntryAgeCandles : Nat) : Except String (Option SignalResult) :=
  if candles_5m.length < 30 then Except.ok none
  else
    let liq := detect_liquidity_zones candles_5m 40 (1/1000)
    let upperLiq := liq.upper_liquidity
    let lowerLiq := liq.lower_liquidity
    if upperLiq = none ∧ lowerLiq = none then Except.ok none
    else
      let sweep := detect_sweep candles_5m upperLiq lowerLiq 4
      match sweep.side, sweep.index with
      | some side, some sweepIdx =>
        let sweepQuality := sweep.quality
        let disp := detect_displacement candles_5m sweepIdx side 2 (16/10)
        match disp.index with
        | none => Except.ok none
        | some dispIdx =>
          let dispBos := disp.bos_ok
          let fvg := detect_fvg_around candles_5m dispIdx 2 (8/1000) (6/1000) (8/10000)
          if ¬ fvg.has_fvg then Except.ok none
          else
            match fvg.low, fvg.high with
            | some fvgLow, some fvgHigh =>
              if fvgHigh ≤ fvgLow then Except.ok none
              else if side = Side.long ∧ fvg.direction ≠ some Direction.bullish then
                Except.ok none
              else if side = Side.short ∧ fvg.direction ≠ some Direction.bearish then
                Except.ok none
              else
                match build_levels_and_leverage side candles_5m sweepIdx fvgLow fvgHigh
                    (12/10) 2 3 with
                | Except.error e => Except.error e
                | Except.ok levels =>
                  let entry := levels.entry
                  let sl := levels.sl
                  let risk := |entry - sl|
                  if risk ≤ 0 then Except.ok none
                  else
                    let rrTp2 := |levels.tp2 - entry| / risk
                    let goodRr := rrTp2 ≥ 18/10
                    let htfAlignment :=
                      if side = Side.long then htfCtx.htf_ok_long else htfCtx.htf_ok_short
                    let meta : Meta :=
                      ⟨decide (upperLiq ≠ none ∨ lowerLiq ≠ none), true, sweepQuality,
                       true, dispBos, true, decide (fvg.quality_ok = true),
                       decide goodRr, levels.sl_pct, some htfAlignment⟩
                    let q := evaluate_signal_quality meta stateMinTier
                    if ¬ q.should_send then Except.ok none
                    else
                      let msg := renderMessage symbol side levels q.tier q.score
                        maxEntryAgeCandles
                      Except.ok (some
                        ⟨symbol.toUpper, side, entry, sl, levels.tp1, levels.tp2,
                         levels.tp3, levels.sl_pct, levels.lev_min, levels.lev_max,
                         q.tier, q.score, htfCtx, msg⟩)
            | _, _ => Except.ok none
      | _, _ => Except.ok none

/-! ### Derived predicates used in theorem statements -/

/-- The quality bit computed by the long branch of `detect_sweep` at a
matched candle index `i`, extracted as a standalone predicate (identical to
the expression inside `sweepScanLong`, including the `avg_range <= 0`
early-exit that forces `quality = False`). -/
def longSweepQualityCode (cs : List Candle) (i : Nat) : Bool :=
  let c := nth cs i
  let totalRange := c.high - c.low
  let body := |c.close - c.«open»|
  let lowerWick := min c.«open» c.close - c.low
  let stats := avg_stats cs i
  let avgRange := stats.1
  let avgLoWick := stats.2.2
  if avgRange ≤ 0 then false
  else
    let rangeOk := totalRange > 3/2 * avgRange
    let wickFrac := if totalRange > 0 then lowerWick / totalRange else 0
    let wickVsAvg := if avgLoWick > 0 then lowerWick > 3/2 * avgLoWick else True
    let bodyNotTooBig := body ≤ 7/10 * totalRange
    decide (rangeOk ∧ wickFrac ≥ 45/100 ∧ wickVsAvg ∧ bodyNotTooBig)

/-- The quality bit computed by the short branch of `detect_sweep` at a
matched candle index `i`. -/
def shortSweepQualityCode (cs : List Candle) (i : Nat) : Bool :=
  let c := nth cs i
  let totalRange := c.high - c.low
  let body := |c.close - c.«open»|
  let upperWick := c.high - max c.«open» c.close
  let stats := avg_stats cs i
  let avgRange := stats.1
  let avgUpWick := stats.2.1
  if avgRange ≤ 0 then false
  else
    let rangeOk := totalRange > 3/2 * avgRange
    let wickFrac := if totalRange > 0 then upperWick / totalRange else 0
    let wickVsAvg := if avgUpWick > 0 then upperWick > 3/2 * avgUpWick else True
    let bodyNotTooBig := body ≤ 7/10 * totalRange
    decide (rangeOk ∧ wickFrac ≥ 45/100 ∧ wickVsAvg ∧ bodyNotTooBig)

/-- The long-sweep quality EXACTLY as the specification words it (claim C5):
all of `range > 1.5 * avg_range`, `lower_wick/range >= 0.45`,
`lower_wick > 1.5 * avg_lower_wick` (vacuously true when
`avg_lower_wick = 0`) and `body <= 0.7 * range`, computed over the up-to-5
preceding candles.  Unlike the code, it has no `avg_range <= 0` early exit. -/
def sweepQualitySpec (cs : List Candle) (i : Nat) : Bool :=
  let c := nth cs i
  let range := c.high - c.low
  let body := |c.close - c.«open»|
  let lowerWick := min c.«open» c.close - c.low
  let stats := avg_stats cs i
  let avgRange := stats.1
  let avgLoWick := stats.2.2
  decide (range > 3/2 * avgRange ∧ lowerWick / range ≥ 45/100 ∧
    (if avgLoWick = 0 then True else lowerWick > 3/2 * avgLoWick) ∧
    body ≤ 7/10 * range)

/-! ### Concrete inputs used by witnesses and counterexamples -/

/-- Build a candle from its four prices (timestamps and volume are not read
by the pipeline). -/
def mkCandle (o h l c : ℚ) : Candle := ⟨0, 0, o, h, l, c, 1, true⟩

/-- A quiet baseline candle around price 100. -/
def flatCandle : Candle := mkCandle 100 (10004/100) (9998/100) (10002/100)

/-- A 40-candle window realising the accepted-long-signal scenario of the
specification: two clustered pivot lows (indices 20 and 26) plus the pivot
low of the sweep bar itself give a lower liquidity zone near 99.92; candle
37 sweeps it with a dominant lower wick; candle 38 is a strong bullish
displacement body closing above the pre-sweep high; candles 37-39 leave a
bullish FVG (100.06, 100.15) near the last close. -/
def sigWindow : List Candle :=
  (List.range 40).map (fun i =>
    if i = 20 then mkCandle 100 (10004/100) (9993/100) (10002/100)
    else if i = 26 then mkCandle 100 (10004/100) (99935/1000) (10002/100)
    else if i = 37 then mkCandle (10003/100) (10006/100) (9990/100) (10004/100)
    else if i = 38 then mkCandle (10004/100) (10030/100) (10002/100) (10028/100)
    else if i = 39 then mkCandle (10016/100) (10032/100) (10015/100) (10030/100)
    else flatCandle)

/-- A neutral HTF snapshot (the fail-open value of the provider). -/
def sigHtf : HTFContext := ⟨"RANGE", "MID", "MID", true, true⟩

/-- The signal produced by the orchestrator on `sigWindow`. -/
def sigRes : SignalResult :=
  match analyze_symbol_smc "btcusdt" sigWindow sigHtf (some "B") 6 with
  | Except.ok (some r) => r
  | _ => default

/-- A two-candle window whose sweep low (90) sits far below the FVG
(99, 100): the resulting stop distance is about 10 percent of the entry,
inside the code cap of 20 percent but far outside the band [0.35, 1.5]
claimed by the specification. -/
def cxArr : List Candle := [mkCandle 95 95 90 94, mkCandle 100 100 95 100]

/-- The level set built on `cxArr`. -/
def cxLevels : Levels :=
  match build_levels_and_leverage Side.long cxArr 0 99 100 (12/10) 2 3 with
  | Except.ok ls => ls
  | _ => default

/-- Six candles whose first five are completely flat (zero range, so
`avg_range = 0` with nonempty preceding history) followed by a textbook
sweep bar of the lower liquidity 99.5: the code reports the sweep with
`quality = False` although every quality condition worded by the
specification holds. -/
def c5Arr : List Candle :=
  [mkCandle 100 100 100 100, mkCandle 100 100 100 100, mkCandle 100 100 100 100,
   mkCandle 100 100 100 100, mkCandle 100 100 100 100,
   mkCandle (1002/10) (1004/10) 99 (1003/10)]

/-- Three candles with a bullish 3-bar gap (1, 2). -/
def c6Arr : List Candle := [mkCandle 1 1 1 1, mkCandle 1 1 1 1, mkCandle 2 3 2 3]

/-- A meta record with every soft signal on but `sweep_quality` off and a
healthy `sl_pct`, scoring 120: the Scenario-D configuration. -/
def metaD : Meta := ⟨true, true, false, true, true, true, true, true, 1/2, some true⟩

/-! ## Theorems -/

/-- An `ite` of a weight against zero is at most the weight. -/
theorem ite_weight_le {p : Prop} [Decidable p] (w : Nat) : (if p then w else 0) ≤ w := by
  split
  · exact Nat.le_refl w
  · exact Nat.zero_le w

/-- C10: for every input meta, `score_signal` returns at most 130 (the sum of
all its weights `10+20+10+20+10+15+10+10+10+15`), so the documented cap of
150 is never attained. -/
theorem C10_score_signal_le_130 (meta : Meta) : score_signal meta ≤ 130 := by
  unfold score_signal
  refine Nat.le_trans (Nat.min_le_left _ _) ?_
  have h1 := ite_weight_le (p := meta.has_liquidity = true) 10
  have h2 := ite_weight_le (p := meta.has_sweep = true) 20
  have h3 := ite_weight_le (p := meta.sweep_quality = true) 10
  have h4 := ite_weight_le (p := meta.has_displacement = true) 20
  have h5 := ite_weight_le (p := meta.disp_bos = true) 10
  have h6 := ite_weight_le (p := meta.has_fvg = true) 15
  have h7 := ite_weight_le (p := meta.fvg_quality = true) 10
  have h8 := ite_weight_le (p := meta.good_rr = true) 10
  have h9 := ite_weight_le (p := MIN_SL_PCT ≤ meta.sl_pct ∧ meta.sl_pct ≤ MAX_SL_PCT) 10
  have h10 := ite_weight_le (p := meta.htf_alignment.getD true = true) 15
  omega

/-- C9: a window of fewer than 6 candles makes `detect_sweep` return the
all-`None` result with `quality = False`, whatever liquidity levels and
scan depth are supplied. -/
theorem C9_detect_sweep_min_window (candles : List Candle)
    (ul ll : Option ℚ) (k : Nat) (h : candles.length < 6) :
    detect_sweep candles ul ll k = ⟨none, none, none, false⟩ := by
  unfold detect_sweep
  simp [h]

/-- Witness for C9 at the empty window. -/
theorem C9_witness :
    detect_sweep [] none (some 100) 4 = ⟨none, none, none, false⟩ :=
  C9_detect_sweep_min_window [] none (some 100) 4 (by decide)

/-- C7: the orchestrator is a pure function of the window, the HTF snapshot
and the configured minimum tier (plus the fixed message-validity setting):
two calls on bit-identical inputs return bit-identical results. -/
theorem C7_idempotent (sym : String) (w w2 : List Candle) (h1 h2 : HTFContext)
    (mt mt2 : Option String) (age age2 : Nat)
    (hw : w = w2) (hh : h1 = h2) (hm : mt = mt2) (ha : age = age2) :
    analyze_symbol_smc sym w h1 mt age = analyze_symbol_smc sym w2 h2 mt2 age2 := by
  rw [hw, hh, hm, ha]

/-- Witness for C7 at the concrete signal-producing window. -/
theorem C7_witness :
    analyze_symbol_smc "btcusdt" sigWindow sigHtf (some "B") 6 =
      analyze_symbol_smc "btcusdt" sigWindow sigHtf (some "B") 6 :=
  C7_idempotent "btcusdt" sigWindow sigWindow sigHtf sigHtf (some "B") (some "B") 6 6
    rfl rfl rfl rfl

/-- C6: whenever `detect_fvg_around` reports `has_fvg = True`, the returned
zone has `high > low` and a direction that is bullish or bearish. -/
theorem C6_fvg_invariant (candles : List Candle) (ci w : Nat)
    (maxW maxD minW : ℚ)
    (h : (detect_fvg_around candles ci w maxW maxD minW).has_fvg = true) :
    (∃ lo hi, (detect_fvg_around candles ci w maxW maxD minW).low = some lo ∧
      (detect_fvg_around candles ci w maxW maxD minW).high = some hi ∧ lo < hi) ∧
    ((detect_fvg_around candles ci w maxW maxD minW).direction = some Direction.bullish ∨
     (detect_fvg_around candles ci w maxW maxD minW).direction = some Direction.bearish) := by
  set r := detect_fvg_around candles ci w maxW maxD minW with hr
  clear_value r
  rw [detect_fvg_around] at hr
  simp only [noFvg] at hr
  split at hr
  · rw [hr] at h; simp at h
  · split at hr
    · rw [hr] at h; simp at h
    · split at hr
      · rw [hr] at h; simp at h
      · split at hr
        · rw [hr] at h; simp at h
        · rename_i dlh heq
          split at hr
          · rw [hr] at h; simp at h
          · rename_i hle
            rw [hr]
            refine ⟨⟨dlh.2.1, dlh.2.2, rfl, rfl, lt_of_not_le hle⟩, ?_⟩
            rcases dlh with ⟨d, lo2, hi2⟩
            cases d
            · exact Or.inl rfl
            · exact Or.inr rfl

/-- Witness for C6 on a three-candle window with a bullish gap. -/
theorem C6_witness :
    (∃ lo hi, (detect_fvg_around c6Arr 0 2 (8/1000) (6/1000) (8/10000)).low = some lo ∧
      (detect_fvg_around c6Arr 0 2 (8/1000) (6/1000) (8/10000)).high = some hi ∧ lo < hi) ∧
    ((detect_fvg_around c6Arr 0 2 (8/1000) (6/1000) (8/10000)).direction =
        some Direction.bullish ∨
     (detect_fvg_around c6Arr 0 2 (8/1000) (6/1000) (8/10000)).direction =
        some Direction.bearish) :=
  C6_fvg_invariant c6Arr 0 2 (8/1000) (6/1000) (8/10000) (by with_unfolding_all rfl)

/-- The hard filter of `evaluate_signal_quality` records no reason exactly
when all five boolean gates hold and `sl_pct` lies in the healthy band. -/
theorem reasons_nil_iff (m : Meta) (mt : Option String) :
    (evaluate_signal_quality m mt).reasons = [] ↔
      (m.sweep_quality = true ∧ m.disp_bos = true ∧ m.fvg_quality = true ∧
       m.good_rr = true ∧ m.htf_alignment.getD true = true ∧
       MIN_SL_PCT ≤ m.sl_pct ∧ m.sl_pct ≤ MAX_SL_PCT) := by
  by_cases hband : MIN_SL_PCT ≤ m.sl_pct ∧ m.sl_pct ≤ MAX_SL_PCT <;>
    cases h1 : m.sweep_quality <;> cases h2 : m.disp_bos <;> cases h3 : m.fvg_quality <;>
    cases h4 : m.good_rr <;> cases h5 : m.htf_alignment.getD true <;>
    simp_all [evaluate_signal_quality]

/-- `should_send` unfolds to the tier gate conjoined with the hard filter. -/
theorem should_send_eq (m : Meta) (mt : Option String) :
    (evaluate_signal_quality m mt).should_send =
      (should_send_tier (tier_from_score (score_signal m)) mt &&
        (evaluate_signal_quality m mt).reasons.isEmpty) := rfl

/-- C2: `should_send` is true iff the tier rank reaches the configured
minimum rank and every hard filter passes (`sweep_quality`, `disp_bos`,
`fvg_quality`, `good_rr`, `htf_alignment` all true and `sl_pct` inside
[0.35, 1.5] percent); each failing filter records its reason tag; and in
particular any input with score at least 120 but `sweep_quality` false is
rejected with the sweep-quality tag recorded. -/
theorem C2_quality_gate (m : Meta) (mt : Option String) :
    ((evaluate_signal_quality m mt).should_send = true ↔
      (minTierOrder (resolveMinTier mt) ≤
         tierOrder (evaluate_signal_quality m mt).tier ∧
       m.sweep_quality = true ∧ m.disp_bos = true ∧ m.fvg_quality = true ∧
       m.good_rr = true ∧ m.htf_alignment.getD true = true ∧
       MIN_SL_PCT ≤ m.sl_pct ∧ m.sl_pct ≤ MAX_SL_PCT)) ∧
    (m.sweep_quality = false →
      "sweep_quality_false" ∈ (evaluate_signal_quality m mt).reasons) ∧
    (m.disp_bos = false →
      "disp_bos_false" ∈ (evaluate_signal_quality m mt).reasons) ∧
    (m.fvg_quality = false →
      "fvg_quality_false" ∈ (evaluate_signal_quality m mt).reasons) ∧
    (m.good_rr = false →
      "good_rr_false" ∈ (evaluate_signal_quality m mt).reasons) ∧
    (m.htf_alignment.getD true = false →
      "htf_alignment_false" ∈ (evaluate_signal_quality m mt).reasons) ∧
    (¬ (MIN_SL_PCT ≤ m.sl_pct ∧ m.sl_pct ≤ MAX_SL_PCT) →
      "sl_pct_out_of_range" ∈ (evaluate_signal_quality m mt).reasons) ∧
    (120 ≤ score_signal m → m.sweep_quality = false →
      (evaluate_signal_quality m mt).should_send = false ∧
      "sweep_quality_false" ∈ (evaluate_signal_quality m mt).reasons) := by
  have htier : (evaluate_signal_quality m mt).tier = tier_from_score (score_signal m) := rfl
  constructor
  · rw [should_send_eq, Bool.and_eq_true, List.isEmpty_iff, reasons_nil_iff, htier]
    unfold should_send_tier
    rw [decide_eq_true_iff]
  refine ⟨?_, ?_, ?_, ?_, ?_, ?_, ?_⟩
  · intro hx; simp [evaluate_signal_quality, hx]
  · intro hx; simp [evaluate_signal_quality, hx]
  · intro hx; simp [evaluate_signal_quality, hx]
  · intro hx; simp [evaluate_signal_quality, hx]
  · intro hx; simp [evaluate_signal_quality, hx]
  · intro hx; simp [evaluate_signal_quality, hx]
  · intro hsc hx
    constructor
    · rw [should_send_eq]
      have hne : (evaluate_signal_quality m mt).reasons.isEmpty = false := by
        rcases h : (evaluate_signal_quality m mt).reasons with _ | ⟨a, tl⟩
        · rw [reasons_nil_iff] at h; rw [hx] at h; simp at h
        · simp
      rw [hne, Bool.and_false]
    · simp [evaluate_signal_quality, hx]

/-- Witness for C2: the Scenario-D meta (score 120, `sweep_quality` false)
is rejected with the sweep-quality tag. -/
theorem C2_witness :
    (evaluate_signal_quality metaD (some "A")).should_send = false ∧
    "sweep_quality_false" ∈ (evaluate_signal_quality metaD (some "A")).reasons :=
  (C2_quality_gate metaD (some "A")).2.2.2.2.2.2.2
    (by with_unfolding_all decide) rfl

/-- The entry never becomes zero: the source replaces a zero entry by the
last close or an epsilon. -/
theorem computeEntry_ne_zero (side : Side) (lastClose fLow fHigh fRange : ℚ) :
    computeEntry side lastClose fLow fHigh fRange ≠ 0 := by
  simp only [computeEntry]
  split_ifs <;> first | assumption | norm_num

/-- `applyTargetRisk` yields exactly the target risk and the matching stop. -/
theorem applyTargetRisk_spec (side : Side) (e t : ℚ) :
    (applyTargetRisk side e t).2 = t ∧
    (applyTargetRisk side e t).1 = (if side = Side.long then e - t else e + t) := by
  simp only [applyTargetRisk]
  split_ifs <;> constructor <;> ring

/-- The initial stop sits at the risk distance from the entry. -/
theorem initialSlRisk_rel (side : Side) (cs : List Candle) (i : Nat) (entry buffer : ℚ) :
    (initialSlRisk side cs i entry buffer).1 =
      (if side = Side.long then entry - (initialSlRisk side cs i entry buffer).2
       else entry + (initialSlRisk side cs i entry buffer).2) := by
  simp only [initialSlRisk]
  split_ifs <;> ring

/-- The fallback risk is 0.35 percent of the absolute entry. -/
theorem fallbackSlRisk_spec (side : Side) (entry : ℚ) :
    (fallbackSlRisk side entry).2 = |entry| * (35/10000) ∧
    (fallbackSlRisk side entry).1 =
      (if side = Side.long then entry - (fallbackSlRisk side entry).2
       else entry + (fallbackSlRisk side entry).2) := by
  simp only [fallbackSlRisk]
  split_ifs <;> constructor <;> ring

/-- A risk set to `|entry| * c` produces an `sl_pct` of exactly `c * 100`. -/
theorem abs_target_pct (entry : ℚ) (he : entry ≠ 0) (c : ℚ) (hc : 0 ≤ c) :
    |(|entry| * c) / entry| * 100 = c * 100 := by
  rw [abs_div, abs_mul, abs_abs, abs_of_nonneg hc, mul_comm |entry| c,
    mul_div_assoc, div_self (abs_ne_zero.mpr he), mul_one]

/-- After the degenerate-risk fallback the risk is positive and the stop is
at the risk distance from the entry (this is why the `RuntimeError` of the
source is unreachable for a nonzero entry). -/
theorem srFinal_spec (side : Side) (cs : List Candle) (i : Nat) (entry buffer : ℚ)
    (he : entry ≠ 0) :
    0 < (srFinal side cs i entry buffer).2 ∧
    (srFinal side cs i entry buffer).1 =
      (if side = Side.long then entry - (srFinal side cs i entry buffer).2
       else entry + (srFinal side cs i entry buffer).2) := by
  simp only [srFinal]
  by_cases h : (initialSlRisk side cs i entry buffer).2 > 0
  · rw [if_pos h]
    exact ⟨h, initialSlRisk_rel side cs i entry buffer⟩
  · rw [if_neg h]
    refine ⟨?_, (fallbackSlRisk_spec side entry).2⟩
    rw [(fallbackSlRisk_spec side entry).1]
    have habs : 0 < |entry| := abs_pos.mpr he
    positivity

/-- The band enforcement returns a positive risk whose `sl_pct` lies in
[0.35, 20] percent, together with the consistent stop. -/
theorem enforceSlBand_spec (side : Side) (entry sl risk : ℚ)
    (he : entry ≠ 0) (hr : 0 < risk)
    (hsl : sl = if side = Side.long then entry - risk else entry + risk) :
    ∃ r2, 0 < r2 ∧
      enforceSlBand side entry sl risk =
        ((if side = Side.long then entry - r2 else entry + r2), r2, |r2 / entry| * 100) ∧
      35/100 ≤ |r2 / entry| * 100 ∧ |r2 / entry| * 100 ≤ 20 := by
  have habs : 0 < |entry| := abs_pos.mpr he
  simp only [enforceSlBand]
  by_cases h1 : |risk / entry| * 100 < 35/100
  · rw [if_pos h1]
    have ht2 := (applyTargetRisk_spec side entry (|entry| * (35/100 / 100))).1
    have ht1 := (applyTargetRisk_spec side entry (|entry| * (35/100 / 100))).2
    have hpct : |(applyTargetRisk side entry (|entry| * (35/100 / 100))).2 / entry| * 100
        = 35/100 := by
      rw [ht2, abs_target_pct entry he _ (by positivity)]; norm_num
    rw [hpct, if_neg (by norm_num)]
    refine ⟨(applyTargetRisk side entry (|entry| * (35/100 / 100))).2, ?_, ?_, ?_, ?_⟩
    · rw [ht2]; positivity
    · rw [hpct, ht1, ht2]
    · rw [hpct]
    · rw [hpct]; norm_num
  · rw [if_neg h1]
    by_cases h2 : |risk / entry| * 100 > 20
    · rw [if_pos h2]
      have ht2 := (applyTargetRisk_spec side entry (|entry| * (20 / 100))).1
      have ht1 := (applyTargetRisk_spec side entry (|entry| * (20 / 100))).2
      have hpct : |(applyTargetRisk side entry (|entry| * (20 / 100))).2 / entry| * 100
          = 20 := by
        rw [ht2, abs_target_pct entry he _ (by positivity)]; norm_num
      refine ⟨(applyTargetRisk side entry (|entry| * (20 / 100))).2, ?_, ?_, ?_, ?_⟩
      · rw [ht2]; positivity
      · rw [ht1, ht2]
      · rw [hpct]; norm_num
      · rw [hpct]
    · rw [if_neg h2]
      refine ⟨risk, hr, ?_, not_lt.mp h1, not_lt.mp h2⟩
      rw [hsl]

/-- `mkLevels` post-condition: positive final risk, banded `sl_pct`,
consistent stop and RR-multiple targets. -/
theorem mkLevels_spec (side : Side) (entry : ℚ) (sr : ℚ × ℚ) (r1 r2 r3 : ℚ)
    (he : entry ≠ 0) (hpos : 0 < sr.2)
    (hrel : sr.1 = if side = Side.long then entry - sr.2 else entry + sr.2) :
    ∃ risk, 0 < risk ∧
      (mkLevels side entry sr r1 r2 r3).entry = entry ∧
      (mkLevels side entry sr r1 r2 r3).sl_pct = |risk / entry| * 100 ∧
      35/100 ≤ (mkLevels side entry sr r1 r2 r3).sl_pct ∧
      (mkLevels side entry sr r1 r2 r3).sl_pct ≤ 20 ∧
      (mkLevels side entry sr r1 r2 r3).sl =
        (if side = Side.long then entry - risk else entry + risk) ∧
      (mkLevels side entry sr r1 r2 r3).tp1 =
        (if side = Side.long then entry + r1 * risk else entry - r1 * risk) ∧
      (mkLevels side entry sr r1 r2 r3).tp2 =
        (if side = Side.long then entry + r2 * risk else entry - r2 * risk) ∧
      (mkLevels side entry sr r1 r2 r3).tp3 =
        (if side = Side.long then entry + r3 * risk else entry - r3 * risk) := by
  obtain ⟨rk, hrk, henf, hlb, hub⟩ := enforceSlBand_spec side entry sr.1 sr.2 he hpos hrel
  refine ⟨rk, hrk, ?_⟩
  simp only [mkLevels, henf]
  simp [hlb, hub]

/-- `bodyTail` never reaches the `RuntimeError` branch for a nonzero entry
and satisfies the `mkLevels` post-condition. -/
theorem bodyTail_spec (side : Side) (cs : List Candle) (i : Nat) (entry : ℚ)
    (he : entry ≠ 0) (buffer r1 r2 r3 : ℚ) :
    ∃ ls risk, bodyTail side cs i entry buffer r1 r2 r3 = Except.ok ls ∧
      0 < risk ∧ ls.entry = entry ∧ ls.sl_pct = |risk / entry| * 100 ∧
      35/100 ≤ ls.sl_pct ∧ ls.sl_pct ≤ 20 ∧
      ls.sl = (if side = Side.long then entry - risk else entry + risk) ∧
      ls.tp1 = (if side = Side.long then entry + r1 * risk else entry - r1 * risk) ∧
      ls.tp2 = (if side = Side.long then entry + r2 * risk else entry - r2 * risk) ∧
      ls.tp3 = (if side = Side.long then entry + r3 * risk else entry - r3 * risk) := by
  obtain ⟨hpos, hrel⟩ := srFinal_spec side cs i entry buffer he
  obtain ⟨risk, hrk, hspec⟩ :=
    mkLevels_spec side entry (srFinal side cs i entry buffer) r1 r2 r3 he hpos hrel
  refine ⟨mkLevels side entry (srFinal side cs i entry buffer) r1 r2 r3, risk, ?_,
    hrk, hspec⟩
  simp only [bodyTail]
  rw [if_neg (not_le.mpr hpos)]

/-- Master post-condition of `build_levels_and_leverage` on any valid call:
the call succeeds and the returned level set has a positive risk, a nonzero
entry, `sl_pct` in [0.35, 20] percent and stop/targets at the exact risk
multiples. -/
theorem build_levels_spec (side : Side) (cs : List Candle) (i : Nat)
    (fl fh r1 r2 r3 : ℚ) (hcs : cs.length ≠ 0) (hi : i < cs.length) :
    ∃ ls risk, build_levels_and_leverage side cs i fl fh r1 r2 r3 = Except.ok ls ∧
      0 < risk ∧ ls.entry ≠ 0 ∧ ls.sl_pct = |risk / ls.entry| * 100 ∧
      35/100 ≤ ls.sl_pct ∧ ls.sl_pct ≤ 20 ∧
      ls.sl = (if side = Side.long then ls.entry - risk else ls.entry + risk) ∧
      ls.tp1 = (if side = Side.long then ls.entry + r1 * risk else ls.entry - r1 * risk) ∧
      ls.tp2 = (if side = Side.long then ls.entry + r2 * risk else ls.entry - r2 * risk) ∧
      ls.tp3 = (if side = Side.long then ls.entry + r3 * risk else ls.entry - r3 * risk) := by
  unfold build_levels_and_leverage
  rw [if_neg hcs, if_neg (not_not_intro hi)]
  have he := computeEntry_ne_zero side ((nth cs (cs.length - 1)).close)
    (min fl fh) (max fl fh) (max (max fl fh - min fl fh) (1/1000000000))
  obtain ⟨ls, risk, hok, hrk, hent, hrest⟩ := bodyTail_spec side cs i _ he
    (computeBuffer (computeEntry side ((nth cs (cs.length - 1)).close)
      (min fl fh) (max fl fh) (max (max fl fh - min fl fh) (1/1000000000)))
      (calc_atr cs 14) (max (max fl fh - min fl fh) (1/1000000000))) r1 r2 r3
  refine ⟨ls, risk, hok, hrk, ?_, ?_⟩
  · rw [hent]; exact he
  · rw [hent]; exact hrest

/-- A successful `build_levels_and_leverage` call implies a nonempty window
and an in-range sweep index (otherwise it raises). -/
theorem build_ok_bounds (side : Side) (cs : List Candle) (i : Nat)
    (fl fh r1 r2 r3 : ℚ) (ls : Levels)
    (hok : build_levels_and_leverage side cs i fl fh r1 r2 r3 = Except.ok ls) :
    cs.length ≠ 0 ∧ i < cs.length := by
  by_cases h0 : cs.length = 0
  · rw [build_levels_and_leverage, if_pos h0] at hok; cases hok
  · by_cases hi : i < cs.length
    · exact ⟨h0, hi⟩
    · rw [build_levels_and_leverage, if_neg h0, if_pos hi] at hok; cases hok

/-- C1 (amended): on every call of `build_levels_and_leverage` that returns
(any window of at least 2 candles, entry finite by construction over `ℚ`),
the returned `sl_pct` lies in the band [0.35, 20] percent — the code floors
at 0.35 but caps at 20, not at 1.5 as the specification claims. -/
theorem C1_sl_pct_band (side : Side) (cs : List Candle) (i : Nat)
    (fl fh r1 r2 r3 : ℚ) (ls : Levels) (_hn : 2 ≤ cs.length)
    (hok : build_levels_and_leverage side cs i fl fh r1 r2 r3 = Except.ok ls) :
    35/100 ≤ ls.sl_pct ∧ ls.sl_pct ≤ 20 := by
  obtain ⟨h0, hi⟩ := build_ok_bounds side cs i fl fh r1 r2 r3 ls hok
  obtain ⟨ls2, risk, hok2, _, _, _, hlb, hub, _, _, _, _⟩ :=
    build_levels_spec side cs i fl fh r1 r2 r3 h0 hi
  rw [hok] at hok2
  injection hok2 with h
  subst h
  exact ⟨hlb, hub⟩

/-- C1 counterexample: on the two-candle window `cxArr` (finite entry 99.7)
the call returns `sl_pct = 200979/19940`, about 10.08 percent — outside the
claimed band [0.35, 1.5]. -/
theorem C1_counterexample :
    (build_levels_and_leverage Side.long cxArr 0 99 100 (12/10) 2 3).map Levels.sl_pct =
      Except.ok (200979/19940 : ℚ) ∧
    2 ≤ cxArr.length ∧ ¬ ((200979/19940 : ℚ) ≤ 3/2) :=
  ⟨by with_unfolding_all rfl, by decide, by norm_num⟩

/-- Witness for the amended C1 band at the concrete window `cxArr`. -/
theorem C1_witness : 35/100 ≤ cxLevels.sl_pct ∧ cxLevels.sl_pct ≤ 20 :=
  C1_sl_pct_band Side.long cxArr 0 99 100 (12/10) 2 3 cxLevels (by decide)
    (by with_unfolding_all rfl)

/-- C8: with the default RR multipliers (1.2, 2.0, 3.0), every level set
returned by `build_levels_and_leverage` satisfies
`|tp2 - entry| / |entry - sl| = 2`, which is at least the 1.8 gate, so the
`good_rr` check of the orchestrator can never reject. -/
theorem C8_good_rr_exact (side : Side) (cs : List Candle) (i : Nat)
    (fl fh : ℚ) (ls : Levels)
    (hok : build_levels_and_leverage side cs i fl fh (12/10) 2 3 = Except.ok ls) :
    |ls.tp2 - ls.entry| / |ls.entry - ls.sl| = 2 ∧
    (18/10 : ℚ) ≤ |ls.tp2 - ls.entry| / |ls.entry - ls.sl| := by
  obtain ⟨h0, hi⟩ := build_ok_bounds side cs i fl fh (12/10) 2 3 ls hok
  obtain ⟨ls2, risk, hok2, hpos, _, _, _, _, hsl, _, htp2, _⟩ :=
    build_levels_spec side cs i fl fh (12/10) 2 3 h0 hi
  rw [hok] at hok2
  injection hok2 with h
  subst h
  have key : |ls.tp2 - ls.entry| / |ls.entry - ls.sl| = 2 := by
    cases side with
    | long =>
      simp at hsl htp2
      rw [hsl, htp2]
      have h2 : ls.entry + 2 * risk - ls.entry = 2 * risk := by ring
      have h3 : ls.entry - (ls.entry - risk) = risk := by ring
      rw [h2, h3, abs_of_pos (by positivity), abs_of_pos hpos,
        mul_div_assoc, div_self (ne_of_gt hpos), mul_one]
    | short =>
      simp at hsl htp2
      rw [hsl, htp2]
      have h2 : ls.entry - 2 * risk - ls.entry = -(2 * risk) := by ring
      have h3 : ls.entry - (ls.entry + risk) = -risk := by ring
      rw [h2, h3, abs_neg, abs_neg, abs_of_pos (by positivity), abs_of_pos hpos,
        mul_div_assoc, div_self (ne_of_gt hpos), mul_one]
  refine ⟨key, by rw [key]; norm_num⟩

/-- Witness for C8 at the concrete window `cxArr`. -/
theorem C8_witness :
    |cxLevels.tp2 - cxLevels.entry| / |cxLevels.entry - cxLevels.sl| = 2 ∧
    (18/10 : ℚ) ≤ |cxLevels.tp2 - cxLevels.entry| / |cxLevels.entry - cxLevels.sl| :=
  C8_good_rr_exact Side.long cxArr 0 99 100 cxLevels (by with_unfolding_all rfl)

/-- Every event produced by the long-sweep scan carries the long side, an
index from the scanned list, the lower liquidity level, and exactly the
quality bit of `longSweepQualityCode` at that index. -/
theorem sweepScanLong_spec (cs : List Candle) (ll : ℚ) :
    ∀ (idxs : List Nat) (r : SweepResult), sweepScanLong cs ll idxs = some r →
      ∃ i, i ∈ idxs ∧ r = ⟨some Side.long, some i, some ll, longSweepQualityCode cs i⟩ := by
  intro idxs
  induction idxs with
  | nil => intro r h; simp [sweepScanLong] at h
  | cons a tl ih =>
    intro r h
    rw [sweepScanLong] at h
    split at h
    · obtain ⟨i, hmem, hr⟩ := ih r h
      exact ⟨i, List.mem_cons_of_mem a hmem, hr⟩
    · dsimp only [] at h
      split at h
      · obtain ⟨i, hmem, hr⟩ := ih r h
        exact ⟨i, List.mem_cons_of_mem a hmem, hr⟩
      · split at h
        · rename_i hAvg
          injection h with h
          refine ⟨a, List.mem_cons_self a tl, ?_⟩
          rw [← h]
          simp only [longSweepQualityCode]
          rw [if_pos hAvg]
        · rename_i hAvg
          injection h with h
          refine ⟨a, List.mem_cons_self a tl, ?_⟩
          rw [← h]
          simp only [longSweepQualityCode]
          rw [if_neg hAvg]

/-- Mirror characterisation of the short-sweep scan. -/
theorem sweepScanShort_spec (cs : List Candle) (ul : ℚ) :
    ∀ (idxs : List Nat) (r : SweepResult), sweepScanShort cs ul idxs = some r →
      ∃ i, i ∈ idxs ∧ r = ⟨some Side.short, some i, some ul, shortSweepQualityCode cs i⟩ := by
  intro idxs
  induction idxs with
  | nil => intro r h; simp [sweepScanShort] at h
  | cons a tl ih =>
    intro r h
    rw [sweepScanShort] at h
    split at h
    · obtain ⟨i, hmem, hr⟩ := ih r h
      exact ⟨i, List.mem_cons_of_mem a hmem, hr⟩
    · dsimp only [] at h
      split at h
      · obtain ⟨i, hmem, hr⟩ := ih r h
        exact ⟨i, List.mem_cons_of_mem a hmem, hr⟩
      · split at h
        · rename_i hAvg
          injection h with h
          refine ⟨a, List.mem_cons_self a tl, ?_⟩
          rw [← h]
          simp only [shortSweepQualityCode]
          rw [if_pos hAvg]
        · rename_i hAvg
          injection h with h
          refine ⟨a, List.mem_cons_self a tl, ?_⟩
          rw [← h]
          simp only [shortSweepQualityCode]
          rw [if_neg hAvg]

/-- Indices scanned by `detect_sweep` are in range. -/
theorem scanIndices_lt (n start i : Nat) (h : i ∈ scanIndices n start) : i < n := by
  simp only [scanIndices, List.mem_reverse] at h
  exact List.mem_range.mp (List.mem_of_mem_drop h)

/-- Full characterisation of `detect_sweep`: either the empty result, or a
long event with the quality of `longSweepQualityCode`, or a short event
with the quality of `shortSweepQualityCode`, always at an in-range index. -/
theorem detect_sweep_cases (cs : List Candle) (ul ll : Option ℚ) (k : Nat) :
    detect_sweep cs ul ll k = ⟨none, none, none, false⟩ ∨
    (∃ i l, i < cs.length ∧
      ((detect_sweep cs ul ll k =
          ⟨some Side.long, some i, some l, longSweepQualityCode cs i⟩ ∧ ll = some l) ∨
       (detect_sweep cs ul ll k =
          ⟨some Side.short, some i, some l, shortSweepQualityCode cs i⟩ ∧ ul = some l))) := by
  rw [detect_sweep]
  by_cases h6 : cs.length < 6
  · rw [if_pos h6]; exact Or.inl rfl
  · rw [if_neg h6]
    dsimp only []
    rcases ll with _ | l
    · dsimp only []
      rcases ul with _ | u
      · dsimp only []; exact Or.inl rfl
      · dsimp only []
        rcases hscan : sweepScanShort cs u (scanIndices cs.length (cs.length - k)) with _ | r
        · dsimp only []; exact Or.inl rfl
        · dsimp only []
          obtain ⟨i, hmem, hr⟩ := sweepScanShort_spec cs u _ r hscan
          exact Or.inr ⟨i, u, scanIndices_lt _ _ _ hmem, Or.inr ⟨by rw [hr], rfl⟩⟩
    · dsimp only []
      rcases hscan : sweepScanLong cs l (scanIndices cs.length (cs.length - k)) with _ | r
      · dsimp only []
        rcases ul with _ | u
        · dsimp only []; exact Or.inl rfl
        · dsimp only []
          rcases hscan2 : sweepScanShort cs u (scanIndices cs.length (cs.length - k)) with _ | r2
          · dsimp only []; exact Or.inl rfl
          · dsimp only []
            obtain ⟨i, hmem, hr⟩ := sweepScanShort_spec cs u _ r2 hscan2
            exact Or.inr ⟨i, u, scanIndices_lt _ _ _ hmem, Or.inr ⟨by rw [hr], rfl⟩⟩
      · dsimp only []
        obtain ⟨i, hmem, hr⟩ := sweepScanLong_spec cs l _ r hscan
        exact Or.inr ⟨i, l, scanIndices_lt _ _ _ hmem, Or.inl ⟨by rw [hr], rfl⟩⟩

/-- A reported sweep index is always inside the window. -/
theorem detect_sweep_index_lt (cs : List Candle) (ul ll : Option ℚ) (k i : Nat)
    (hi : (detect_sweep cs ul ll k).index = some i) : i < cs.length := by
  rcases detect_sweep_cases cs ul ll k with h | ⟨i2, l, hlt, ⟨heq, _⟩ | ⟨heq, _⟩⟩
  · rw [h] at hi; cases hi
  · rw [heq] at hi; injection hi with hi; rw [← hi]; exact hlt
  · rw [heq] at hi; injection hi with hi; rw [← hi]; exact hlt

/-- C5 (amended): whenever `detect_sweep` reports a long sweep at index `i`,
its quality equals the code predicate `longSweepQualityCode` — the four
specification conditions guarded additionally by `avg_range > 0`; when the
average preceding range is not positive (in particular with no preceding
history) the sweep is still reported and the quality is false. -/
theorem C5_long_sweep_quality (cs : List Candle) (ul : Option ℚ) (ll : ℚ) (i : Nat)
    (hs : (detect_sweep cs ul (some ll) 4).side = some Side.long)
    (hi : (detect_sweep cs ul (some ll) 4).index = some i) :
    (detect_sweep cs ul (some ll) 4).quality = longSweepQualityCode cs i := by
  rcases detect_sweep_cases cs ul (some ll) 4 with h | ⟨i2, l, hlt, ⟨heq, hll⟩ | ⟨heq, hul⟩⟩
  · rw [h] at hs; cases hs
  · rw [heq] at hi ⊢
    injection hi with hi
    rw [hi]
  · rw [heq] at hs
    injection hs with hs
    cases hs

/-- C5 counterexample: on `c5Arr` (five flat candles, then a textbook sweep
bar of the lower liquidity 99.5) the sweep is reported at index 5 with
`quality = False`, although every quality condition worded by the
specification (`sweepQualitySpec`) holds — the code also demands
`avg_range > 0` over the preceding candles. -/
theorem C5_counterexample :
    detect_sweep c5Arr none (some (199/2)) 4 =
      ⟨some Side.long, some 5, some (199/2), false⟩ ∧
    sweepQualitySpec c5Arr 5 = true :=
  ⟨by with_unfolding_all rfl, by with_unfolding_all rfl⟩

/-- Witness for the amended C5 at the concrete window `c5Arr`. -/
theorem C5_witness :
    (detect_sweep c5Arr none (some (199/2)) 4).quality = longSweepQualityCode c5Arr 5 :=
  C5_long_sweep_quality c5Arr none (199/2) 5 (by with_unfolding_all rfl)
    (by with_unfolding_all rfl)

/-- An `ite` of two `ok` results is an `ok` result. -/
theorem ok_of_ite_ok {p : Prop} [Decidable p] (x y : Except String (Option SignalResult))
    (hx : ∃ r, x = Except.ok r) (hy : ∃ r, y = Except.ok r) :
    ∃ r, (if p then x else y) = Except.ok r := by
  split
  · exact hx
  · exact hy

/-- C3: for every symbol, candle window, HTF snapshot and configuration,
the orchestrator returns an `ok` result (`some` signal or `none`): the
raise sites of `build_levels_and_leverage` — the only exception sources of
the pipeline over well-typed candles — are unreachable from
`analyze_symbol_smc`, so no exception propagates out of it. -/
theorem C3_no_exception (sym : String) (cs : List Candle) (htf : HTFContext)
    (mt : Option String) (age : Nat) :
    ∃ r, analyze_symbol_smc sym cs htf mt age = Except.ok r := by
  rw [analyze_symbol_smc]
  by_cases h30 : cs.length < 30
  · rw [if_pos h30]; exact ⟨none, rfl⟩
  · rw [if_neg h30]
    dsimp only []
    split
    · exact ⟨none, rfl⟩
    · split
      · rename_i side sweepIdx hside hidx
        have hlt : sweepIdx < cs.length := detect_sweep_index_lt cs _ _ 4 sweepIdx hidx
        split
        · exact ⟨none, rfl⟩
        · rename_i dispIdx hdisp
          split
          · exact ⟨none, rfl⟩
          · split
            · rename_i fl fh hlo hhi
              split
              · exact ⟨none, rfl⟩
              · split
                · exact ⟨none, rfl⟩
                · split
                  · exact ⟨none, rfl⟩
                  · obtain ⟨ls, risk, hok, hrest⟩ :=
                      build_levels_spec side cs sweepIdx fl fh (12/10) 2 3
                        (by omega) hlt
                    rw [hok]
                    dsimp only []
                    apply ok_of_ite_ok
                    · exact ⟨none, rfl⟩
                    · apply ok_of_ite_ok
                      · exact ⟨none, rfl⟩
                      · exact ⟨_, rfl⟩
            · exact ⟨none, rfl⟩
      · exact ⟨none, rfl⟩

/-- Inversion of the final send gate of the orchestrator. -/
theorem ok_ite_inv {p : Prop} [Decidable p] (x : Option SignalResult) (res : SignalResult)
    (h : (if p then Except.ok none else Except.ok x :
        Except String (Option SignalResult)) = Except.ok (some res)) :
    x = some res := by
  split at h
  · simp at h
  · injection h

/-- A stop at the risk distance and a target at twice the risk give the
exact 2:1 distance identity. -/
theorem rr_exact_of_spec (side : Side) (entry sl tp2 risk : ℚ) (hpos : 0 < risk)
    (hsl : sl = if side = Side.long then entry - risk else entry + risk)
    (htp2 : tp2 = if side = Side.long then entry + 2 * risk else entry - 2 * risk) :
    |tp2 - entry| = 2 * |entry - sl| := by
  cases side
  · simp at hsl htp2
    rw [hsl, htp2]
    have h2 : entry + 2 * risk - entry = 2 * risk := by ring
    have h3 : entry - (entry - risk) = risk := by ring
    rw [h2, h3, abs_of_pos (by positivity), abs_of_pos hpos]
  · simp at hsl htp2
    rw [hsl, htp2]
    have h2 : entry - 2 * risk - entry = -(2 * risk) := by ring
    have h3 : entry - (entry + risk) = -risk := by ring
    rw [h2, h3, abs_neg, abs_neg, abs_of_pos (by positivity), abs_of_pos hpos]

/-- C4: every signal returned by the orchestrator satisfies
`|tp2 - entry| = 2 * |entry - sl|` exactly over the rationals (hence within
any relative floating tolerance, in particular 1e-9). -/
theorem C4_rr_exact (sym : String) (cs : List Candle) (htf : HTFContext)
    (mt : Option String) (age : Nat) (res : SignalResult)
    (hok : analyze_symbol_smc sym cs htf mt age = Except.ok (some res)) :
    |res.tp2 - res.entry| = 2 * |res.entry - res.sl| := by
  rw [analyze_symbol_smc] at hok
  by_cases h30 : cs.length < 30
  · rw [if_pos h30] at hok; simp at hok
  · rw [if_neg h30] at hok
    dsimp only [] at hok
    split at hok
    · simp at hok
    · split at hok
      · rename_i side sweepIdx hside hidx
        have hlt : sweepIdx < cs.length := detect_sweep_index_lt cs _ _ 4 sweepIdx hidx
        split at hok
        · simp at hok
        · rename_i dispIdx hdisp
          split at hok
          · simp at hok
          · split at hok
            · rename_i fl fh hlo hhi
              split at hok
              · simp at hok
              · split at hok
                · simp at hok
                · split at hok
                  · simp at hok
                  · split at hok
                    · cases hok
                    · rename_i levels heqB
                      obtain ⟨ls2, risk, hok2, hpos, hne, hpct, hlb, hub, hsl,
                        htp1, htp2, htp3⟩ :=
                        build_levels_spec side cs sweepIdx fl fh (12/10) 2 3
                          (by omega) hlt
                      rw [heqB] at hok2
                      injection hok2 with hls
                      subst hls
                      by_cases hrisk : |levels.entry - levels.sl| ≤ 0
                      · rw [if_pos hrisk] at hok; simp at hok
                      · rw [if_neg hrisk] at hok
                        have hres := ok_ite_inv _ res hok
                        injection hres with hres
                        subst hres
                        exact rr_exact_of_spec side levels.entry levels.sl levels.tp2
                          risk hpos hsl htp2
            · simp at hok
      · simp at hok

/-- Witness for C4 at the concrete signal-producing window `sigWindow`. -/
theorem C4_witness : |sigRes.tp2 - sigRes.entry| = 2 * |sigRes.entry - sigRes.sl| :=
  C4_rr_exact "btcusdt" sigWindow sigHtf (some "B") 6 sigRes
    (by with_unfolding_all rfl)

end SmcBot
